import Mathlib

/-!
Profession controller: record construction, partial-update merge, lookup filter.

A shallow embedding of `src/controllers/professionController.js`
(`addProfession`, `getProfessionalsByService`, `updateUserProfessionalProfile`)
together with the JavaScript built-ins the controller calls
(`String`, `String.prototype.trim`, `parseFloat`, `isNaN`).

Modelling conventions.

* A request body is a parsed JSON object: its values are `JSValue`s, which do not
  include `undefined`.  Reading a key that the body lacks yields `undefined`,
  modelled as `none`.
* `String(v)` and `parseFloat(v)` convert `v` with `ToString`, which throws a `TypeError`
  for an object that has an own property `toString` (a JSON value is never callable);
  a throw inside a controller reaches its `catch` block.
* A Number is `NaN`, a signed infinity, or a signed finite value carried as the
  decimal `digits × 10 ^ exp` it denotes (`digits` not divisible by ten).  The
  rounding of a literal to binary64 is not modelled.
* The auth middleware and the body parser have run: `req.user`, when present, carries a
  string `id`, and `req.body` is an object.
* The persistence layer (`Profession.create`, `Profession.findOne`,
  `document.save`, `User.findByIdAndUpdate`) is an external collaborator; its
  answers are parameters of the controllers, and every call is recorded.
-/

namespace ProfessionController

/-! ## JavaScript values -/

/-- A JavaScript Number: `NaN`, `±Infinity`, or the signed decimal `digits × 10 ^ exp`. -/
inductive JSNumber where
  | nan
  | infinity (neg : Bool)
  | finite (neg : Bool) (digits : Nat) (exp : Int)
  deriving DecidableEq, Repr

/-- A value that a parsed JSON body can hold. -/
inductive JSValue where
  | null
  | bool (b : Bool)
  | number (n : JSNumber)
  | string (s : String)
  | array (items : List JSValue)
  | object (props : List (String × JSValue))

/-- The global `isNaN` applied to a Number. -/
def isNaN : JSNumber → Bool
  | .nan => true
  | _ => false

/-- A Number that is neither `NaN` nor infinite. -/
def JSNumber.isFinite : JSNumber → Bool
  | .finite _ _ _ => true
  | _ => false

/-- A Number that is below zero. -/
def JSNumber.isNegative : JSNumber → Bool
  | .infinity neg => neg
  | .finite neg digits _ => neg && decide (digits ≠ 0)
  | .nan => false

/-! ## Strings: white space, `trim`, decimal digits -/

/-- The code points of `WhiteSpace` and `LineTerminator`, which `trim` and `parseFloat` strip. -/
def isWhiteSpace (c : Char) : Bool :=
  let n := c.toNat
  n == 0x09 || n == 0x0A || n == 0x0B || n == 0x0C || n == 0x0D || n == 0x20 ||
  n == 0xA0 || n == 0x1680 || (0x2000 ≤ n && n ≤ 0x200A) || n == 0x2028 ||
  n == 0x2029 || n == 0x202F || n == 0x205F || n == 0x3000 || n == 0xFEFF

/-- Strip leading white space. -/
def trimStart : List Char → List Char
  | [] => []
  | c :: cs => if isWhiteSpace c then trimStart cs else c :: cs

/-- Strip trailing white space. -/
def trimEnd (cs : List Char) : List Char :=
  (trimStart cs.reverse).reverse

/-- The method `String.prototype.trim`. -/
def trim (s : String) : String :=
  ⟨trimEnd (trimStart s.data)⟩

/-- A decimal digit `0`..`9`. -/
def isDigit (c : Char) : Bool :=
  48 ≤ c.toNat && c.toNat ≤ 57

/-- The longest prefix of decimal digits, and the rest. -/
def spanDigits : List Char → List Char × List Char
  | [] => ([], [])
  | c :: cs =>
    if isDigit c then ((spanDigits cs).1.cons c, (spanDigits cs).2) else ([], c :: cs)

/-- The value of a run of decimal digits. -/
def digitsValue (ds : List Char) : Nat :=
  ds.foldl (fun acc c => 10 * acc + (c.toNat - 48)) 0

/-- The digits of a natural number, most significant first (`fuel` bounds their count). -/
def natDigitsAux : Nat → Nat → List Char → List Char
  | 0, _, acc => acc
  | fuel + 1, n, acc =>
    if n < 10 then Char.ofNat (48 + n) :: acc
    else natDigitsAux fuel (n / 10) (Char.ofNat (48 + n % 10) :: acc)

/-- The decimal digits of a natural number. -/
def natDigits (n : Nat) : List Char :=
  natDigitsAux (n + 1) n []

/-- Drop the factors of ten of `n`, counting them (`fuel` bounds the count). -/
def stripTens : Nat → Nat → Nat → Nat × Nat
  | 0, n, k => (n, k)
  | fuel + 1, n, k =>
    if n ≠ 0 ∧ n % 10 = 0 then stripTens fuel (n / 10) (k + 1) else (n, k)

/-- The finite Number `± digits × 10 ^ exp`, with the factors of ten of `digits` moved to `exp`. -/
def mkFinite (neg : Bool) (digits : Nat) (exp : Int) : JSNumber :=
  if digits = 0 then .finite neg 0 0
  else .finite neg (stripTens digits digits 0).1 (exp + (stripTens digits digits 0).2)

/-! ## `parseFloat` -/

/-- The value of an `ExponentPart` (`e` or `E`, an optional sign, digits) at the head of the
input, and `0` when the input does not start with one. -/
def exponentValue : List Char → Int
  | [] => 0
  | e :: rest =>
    if e.toNat = 101 ∨ e.toNat = 69 then
      match rest with
      | [] => 0
      | c :: r =>
        if c.toNat = 43 then Int.ofNat (digitsValue (spanDigits r).1)
        else if c.toNat = 45 then - Int.ofNat (digitsValue (spanDigits r).1)
        else Int.ofNat (digitsValue (spanDigits (c :: r)).1)
    else 0

/-- The text `Infinity`. -/
def infinityText : List Char := "Infinity".data

/-- The longest prefix that is a `StrUnsignedDecimalLiteral`, evaluated; `NaN` when there is
none. -/
def parseUnsigned (neg : Bool) (cs : List Char) : JSNumber :=
  if infinityText.isPrefixOf cs then .infinity neg
  else
    let ip := (spanDigits cs).1
    match (spanDigits cs).2 with
    | [] => if ip = [] then .nan else mkFinite neg (digitsValue ip) 0
    | c :: r =>
      if c.toNat = 46 then
        let fp := (spanDigits r).1
        if ip = [] ∧ fp = [] then .nan
        else mkFinite neg (digitsValue (ip ++ fp))
          (exponentValue (spanDigits r).2 - Int.ofNat fp.length)
      else if ip = [] then .nan
      else mkFinite neg (digitsValue ip) (exponentValue (c :: r))

/-- The global `parseFloat` on a string: leading white space is skipped, then the longest
prefix that is a `StrDecimalLiteral` is evaluated. -/
def parseFloatString (s : String) : JSNumber :=
  match trimStart s.data with
  | [] => .nan
  | c :: r =>
    if c.toNat = 43 then parseUnsigned false r
    else if c.toNat = 45 then parseUnsigned true r
    else parseUnsigned false (c :: r)

/-! ## `ToString` -/

/-- The operation `Number::toString` (radix 10). -/
def numberToString : JSNumber → String
  | .nan => "NaN"
  | .infinity neg => if neg then "-Infinity" else "Infinity"
  | .finite neg digits exp =>
    if digits = 0 then "0"
    else
      let m := (stripTens digits digits 0).1
      let s := natDigits m
      let k : Int := Int.ofNat s.length
      let n : Int := exp + Int.ofNat (stripTens digits digits 0).2 + k
      let sign : List Char := if neg then ['-'] else []
      let body : List Char :=
        if k ≤ n ∧ n ≤ 21 then s ++ List.replicate (n - k).toNat '0'
        else if 0 < n ∧ n ≤ 21 then s.take n.toNat ++ '.' :: s.drop n.toNat
        else if -6 < n ∧ n ≤ 0 then '0' :: '.' :: List.replicate (-n).toNat '0' ++ s
        else
          let e := n - 1
          let es : List Char := (if e < 0 then '-' else '+') :: natDigits e.natAbs
          if s.length = 1 then s ++ 'e' :: es
          else s.take 1 ++ '.' :: s.drop 1 ++ 'e' :: es
      ⟨sign ++ body⟩

/-- An error thrown inside a controller: its `name`, its `message`, and the messages of
`Object.values(err.errors)` (empty unless it is a validation error). -/
structure ThrownError where
  name : String
  message : String
  errors : List String

/-- The `TypeError` of `ToString` on an object that has no callable `toString` or `valueOf`
giving a primitive. -/
def cannotConvertError : ThrownError :=
  ⟨"TypeError", "Cannot convert object to primitive value", []⟩

/-- Does the property list hold the key (an own property of that name)? -/
def hasOwnProperty : List (String × JSValue) → String → Bool
  | [], _ => false
  | (k', _) :: rest, k => k' == k || hasOwnProperty rest k

mutual
/-- The operation `ToString` (what `String(v)` returns, or the error it throws).  An object
is converted through its `toString` method: the inherited one gives `[object Object]`; an own
property `toString` of a JSON object is not callable, and the conversion throws. -/
def toStr : JSValue → Except ThrownError String
  | .null => .ok "null"
  | .bool b => .ok (if b then "true" else "false")
  | .number n => .ok (numberToString n)
  | .string s => .ok s
  | .array items =>
    match joinItems items with
    | .error e => .error e
    | .ok cs => .ok ⟨cs⟩
  | .object props =>
    if hasOwnProperty props "toString" then .error cannotConvertError
    else .ok "[object Object]"
/-- The method `Array.prototype.join` with the separator `,`, element by element. -/
def joinItems : List JSValue → Except ThrownError (List Char)
  | [] => .ok []
  | [v] => itemText v
  | v :: w :: rest =>
    match itemText v with
    | .error e => .error e
    | .ok t =>
      match joinItems (w :: rest) with
      | .error e => .error e
      | .ok r => .ok (t ++ ',' :: r)
/-- The text of one array element inside `join`: a `null` element contributes the empty
string, any other element its `ToString`. -/
def itemText : JSValue → Except ThrownError (List Char)
  | .null => .ok []
  | .bool b => .ok (if b then "true".data else "false".data)
  | .number n => .ok (numberToString n).data
  | .string s => .ok s.data
  | .array items => joinItems items
  | .object props =>
    if hasOwnProperty props "toString" then .error cannotConvertError
    else .ok "[object Object]".data
end

/-- The global `parseFloat`: its argument is first converted with `ToString`. -/
def parseFloat (v : JSValue) : Except ThrownError JSNumber :=
  match toStr v with
  | .error e => .error e
  | .ok s => .ok (parseFloatString s)

/-! ## Objects -/

/-- A JavaScript object as an ordered list of properties.  A property that is absent and a
property whose value is `undefined` are not distinguished: both read as `none`. -/
abbrev Obj := List (String × JSValue)

/-- Read a property: `o[k]`, with `none` for `undefined`. -/
def getProp : Obj → String → Option JSValue
  | [], _ => none
  | (k', v) :: rest, k => if k' = k then some v else getProp rest k

/-- Write a property: `o[k] = v`. -/
def setProp : Obj → String → JSValue → Obj
  | [], k, v => [(k, v)]
  | (k', v') :: rest, k, v =>
    if k' = k then (k, v) :: rest else (k', v') :: setProp rest k v

/-- Remove a property (what assigning `undefined` amounts to). -/
def unsetProp : Obj → String → Obj
  | [], _ => []
  | (k', v') :: rest, k =>
    if k' = k then unsetProp rest k else (k', v') :: unsetProp rest k

/-- The assignment `o[k] = v` where `v` may be `undefined`. -/
def assign (o : Obj) (k : String) : Option JSValue → Obj
  | none => unsetProp o k
  | some v => setProp o k v

/-- The statement `if (v !== undefined) o[k] = v`. -/
def assignIfDefined (o : Obj) (k : String) : Option JSValue → Obj
  | none => o
  | some v => setProp o k v

/-! ## The candidate record of `addProfession` (source lines 32-63) -/

/-- The object literal of lines 32-48: the owner from the authenticated user, the other
properties from the destructured body. -/
def basePayload (userId : String) (body : Obj) : Obj :=
  let p : Obj := [("user", .string userId)]
  let p := assign p "name" (getProp body "name")
  let p := assign p "email" (getProp body "email")
  let p := assign p "mobileNo" (getProp body "mobileNo")
  let p := assign p "secondaryMobileNo" (getProp body "secondaryMobileNo")
  let p := assign p "state" (getProp body "state")
  let p := assign p "district" (getProp body "district")
  let p := assign p "city" (getProp body "city")
  let p := assign p "serviceCategory" (getProp body "serviceCategory")
  let p := assign p "serviceName" (getProp body "serviceName")
  let p := assign p "designation" (getProp body "designation")
  let p := assign p "experience" (getProp body "experience")
  let p := assign p "needSupport" (getProp body "needSupport")
  assign p "professionDescription" (getProp body "professionDescription")

/-- The conditional `servicePrice` of `addProfession` (lines 51-58): the parsed price is
added when the supplied value is not `undefined`, not `null`, not blank after
`String(..).trim()` and its `parseFloat` is not `NaN`; a throw of `String` or `parseFloat`
leaves the block. -/
def addServicePrice (payload : Obj) : Option JSValue → Except ThrownError Obj
  | none => .ok payload
  | some .null => .ok payload
  | some v =>
    match toStr v with
    | .error e => .error e
    | .ok s =>
      if trim s ≠ "" then
        match parseFloat v with
        | .error e => .error e
        | .ok parsedPrice =>
          if !isNaN parsedPrice then .ok (setProp payload "servicePrice" (.number parsedPrice))
          else .ok payload
      else .ok payload

/-- The object `professionPayload` that `addProfession` hands to `Profession.create`, or the
error thrown while it is built. -/
def professionPayload (userId : String) (body : Obj) : Except ThrownError Obj :=
  match addServicePrice (basePayload userId body) (getProp body "servicePrice") with
  | .error e => .error e
  | .ok p => .ok (assignIfDefined p "priceUnit" (getProp body "priceUnit"))

/-! ## The merge of `updateUserProfessionalProfile` (source lines 152-180) -/

/-- The assignments of lines 152-163. -/
def mergeBefore (professionalProfile : Obj) (body : Obj) : Obj :=
  let p := assignIfDefined professionalProfile "name" (getProp body "name")
  let p := assignIfDefined p "email" (getProp body "email")
  let p := assignIfDefined p "mobileNo" (getProp body "mobileNo")
  let p := assignIfDefined p "secondaryMobileNo" (getProp body "secondaryMobileNo")
  let p := assignIfDefined p "state" (getProp body "state")
  let p := assignIfDefined p "district" (getProp body "district")
  let p := assignIfDefined p "city" (getProp body "city")
  let p := assignIfDefined p "serviceCategory" (getProp body "serviceCategory")
  let p := assignIfDefined p "serviceName" (getProp body "serviceName")
  let p := assignIfDefined p "designation" (getProp body "designation")
  assignIfDefined p "experience" (getProp body "experience")

/-- The `servicePrice` step of the update (lines 165-176); a throw of `String` or
`parseFloat` leaves the block. -/
def updateServicePrice (profile : Obj) : Option JSValue → Except ThrownError Obj
  | none => .ok profile
  | some .null => .ok (unsetProp profile "servicePrice")
  | some v =>
    match toStr v with
    | .error e => .error e
    | .ok s =>
      if trim s = "" then .ok (unsetProp profile "servicePrice")
      else
        match parseFloat v with
        | .error e => .error e
        | .ok parsed =>
          if !isNaN parsed then .ok (setProp profile "servicePrice" (.number parsed))
          else .ok profile

/-- The assignments of lines 178-180. -/
def mergeAfter (professionalProfile : Obj) (body : Obj) : Obj :=
  let p := assignIfDefined professionalProfile "priceUnit" (getProp body "priceUnit")
  let p := assignIfDefined p "needSupport" (getProp body "needSupport")
  assignIfDefined p "professionDescription" (getProp body "professionDescription")

/-- The loaded document after the assignments of lines 152-180, or the error thrown on the
way. -/
def mergeProfile (professionalProfile : Obj) (body : Obj) : Except ThrownError Obj :=
  match updateServicePrice (mergeBefore professionalProfile body)
      (getProp body "servicePrice") with
  | .error e => .error e
  | .ok p => .ok (mergeAfter p body)

/-- The fields that the update can assign. -/
def mutableFields : List String :=
  ["name", "email", "mobileNo", "secondaryMobileNo", "state", "district", "city",
   "serviceCategory", "serviceName", "designation", "experience", "servicePrice",
   "priceUnit", "needSupport", "professionDescription"]

/-- The mutable fields other than `servicePrice`. -/
def plainFields : List String :=
  ["name", "email", "mobileNo", "secondaryMobileNo", "state", "district", "city",
   "serviceCategory", "serviceName", "designation", "experience", "priceUnit",
   "needSupport", "professionDescription"]

/-- The keys through which a payload could try to name an owner. -/
def ownerKeys : List String := ["user", "userId", "ownerUserId"]

/-- The value, when there is one, converts to a string without a throw (or is `null`, which
the controllers never convert). -/
def converts : Option JSValue → Bool
  | none => true
  | some .null => true
  | some v =>
    match toStr v with
    | .ok _ => true
    | .error _ => false

/-- The value under `servicePrice` in the body, when there is one, converts to a string. -/
def priceConverts (body : Obj) : Bool :=
  converts (getProp body "servicePrice")

/-! ## Requests, responses and the persistence collaborator -/

/-- The authenticated user attached to a request by the auth middleware (`req.user`); its
`id` is a string, and the empty string is the one falsy id. -/
structure AuthUser where
  id : String

/-- The parts of a request the controllers read. -/
structure Request where
  user : Option AuthUser
  body : Obj

/-- A response: `res.status(status).json(body)`. -/
structure Response where
  status : Nat
  body : Obj

/-- A call issued to the persistence layer. -/
inductive StoreCall where
  | create (doc : Obj)
  | findByIdAndUpdate (id : String) (update : Obj)
  | findOne (filter : Obj)
  | save (doc : Obj)

/-- A write to the store. -/
def StoreCall.isWrite : StoreCall → Bool
  | .findOne _ => false
  | _ => true

/-- The answers of the persistence layer: each call returns or throws. -/
structure Persistence where
  create : Obj → Except ThrownError Obj
  findByIdAndUpdate : String → Obj → Except ThrownError Unit
  findOne : Obj → Except ThrownError (Option Obj)
  save : Obj → Except ThrownError Unit

/-- The text of `messages.join(', ')`. -/
def joinMessages : List String → String
  | [] => ""
  | [m] => m
  | m :: n :: rest => m ++ ", " ++ joinMessages (n :: rest)

/-- The `catch` block of `addProfession` (lines 73-84). -/
def addProfessionCatch (err : ThrownError) : Response :=
  if err.name = "ValidationError" then
    ⟨400, [("success", .bool false), ("error", .string (joinMessages err.errors))]⟩
  else
    ⟨400, [("success", .bool false),
           ("error", .string (if err.message ≠ "" then err.message
                              else "Failed to add profession."))]⟩

/-- The update sent with the flag write: `{ isProfession: true }`. -/
def isProfessionFlag : Obj := [("isProfession", .bool true)]

/-- The controller `addProfession`: the response and the store calls issued, in order. -/
def addProfession (db : Persistence) (req : Request) : Response × List StoreCall :=
  match req.user with
  | none =>
    (⟨401, [("success", .bool false),
            ("error", .string "User not authenticated to add profession.")]⟩, [])
  | some user =>
    if user.id = "" then
      (⟨401, [("success", .bool false),
              ("error", .string "User not authenticated to add profession.")]⟩, [])
    else
      match professionPayload user.id req.body with
      | .error err => (addProfessionCatch err, [])
      | .ok payload =>
        match db.create payload with
        | .error err => (addProfessionCatch err, [.create payload])
        | .ok profession =>
          match db.findByIdAndUpdate user.id isProfessionFlag with
          | .error err =>
            (addProfessionCatch err,
             [.create payload, .findByIdAndUpdate user.id isProfessionFlag])
          | .ok _ =>
            (⟨201, [("success", .bool true), ("data", .object profession)]⟩,
             [.create payload, .findByIdAndUpdate user.id isProfessionFlag])

/-- The `catch` block of `updateUserProfessionalProfile` (lines 185-195). -/
def updateCatch (err : ThrownError) : Response :=
  if err.name = "ValidationError" then
    ⟨400, [("success", .bool false), ("error", .string (joinMessages err.errors))]⟩
  else
    ⟨500, [("success", .bool false), ("error", .string "Server error while updating profile"),
           ("details", .string err.message)]⟩

/-- The `TypeError` raised by reading `req.user.id` when `req.user` is `undefined`. -/
def noUserError : ThrownError :=
  ⟨"TypeError", "Cannot read properties of undefined (reading 'id')", []⟩

/-- The filter `{ user: userId }`. -/
def ownerFilter (userId : String) : Obj :=
  [("user", .string userId)]

/-- The controller `updateUserProfessionalProfile`: the response and the store calls issued,
in order. -/
def updateUserProfessionalProfile (db : Persistence) (req : Request) :
    Response × List StoreCall :=
  match req.user with
  | none => (updateCatch noUserError, [])
  | some user =>
    let filter := ownerFilter user.id
    match db.findOne filter with
    | .error err => (updateCatch err, [.findOne filter])
    | .ok none =>
      (⟨404, [("success", .bool false),
              ("error", .string "Professional profile not found. Please add one first.")]⟩,
       [.findOne filter])
    | .ok (some professionalProfile) =>
      match mergeProfile professionalProfile req.body with
      | .error err => (updateCatch err, [.findOne filter])
      | .ok merged =>
        match db.save merged with
        | .error err => (updateCatch err, [.findOne filter, .save merged])
        | .ok _ =>
          (⟨200, [("success", .bool true),
                  ("message", .string "Professional profile updated successfully"),
                  ("data", .object merged)]⟩,
           [.findOne filter, .save merged])

/-! ## The lookup of `getProfessionalsByService` (source lines 87-119) -/

/-- The filter `{ serviceName: { $regex: .., $options: .. } }` handed to `Profession.find`. -/
structure RegexFilter where
  regex : String
  options : String
  deriving DecidableEq

/-- The filter built from the query parameter: the template literal
`^${serviceName}$` with the option `i`. -/
def serviceNameFilter (serviceName : String) : RegexFilter :=
  ⟨"^" ++ serviceName ++ "$", "i"⟩

/-- The controller `getProfessionalsByService` on the query parameter `serviceName` (a
string, or `undefined`), with the answer of `Profession.find` as a parameter: the response
and the filters handed to the store. -/
def getProfessionalsByService (find : RegexFilter → Except ThrownError (List Obj))
    (serviceName : Option String) : Response × List RegexFilter :=
  match serviceName with
  | none => (⟨400, [("success", .bool false), ("error", .string "Service name is required")]⟩, [])
  | some q =>
    if q = "" then
      (⟨400, [("success", .bool false), ("error", .string "Service name is required")]⟩, [])
    else
      match find (serviceNameFilter q) with
      | .error err =>
        (⟨500, [("success", .bool false),
                ("error", .string "Server error while fetching professionals"),
                ("details", .string err.message)]⟩, [serviceNameFilter q])
      | .ok professions =>
        (⟨200, [("success", .bool true), ("data", .array (professions.map JSValue.object))]⟩,
         [serviceNameFilter q])

/-! ## Values and stores used in the statements -/

/-- A value fit to be a stored price under the data model: a finite Number that is not
below zero. -/
def isFiniteNonNegative : JSValue → Bool
  | .number n => n.isFinite && !n.isNegative
  | _ => false

/-- A Number that is not `NaN`. -/
def isNumberNotNaN : JSValue → Bool
  | .number n => !isNaN n
  | _ => false

/-- A creation payload with every field the schema requires. -/
def completePayload : Obj :=
  [("name", .string "Asha"), ("email", .string "asha@example.com"),
   ("mobileNo", .string "9000000001"), ("serviceCategory", .string "Home"),
   ("serviceName", .string "Plumber")]

/-- A JSON object with an own property `toString`: `{ "toString": "x" }`. -/
def unconvertible : JSValue :=
  .object [("toString", .string "x")]

/-- A stored profile of the user `u1` with a price of 100. -/
def storedProfile : Obj :=
  [("_id", .string "p1"), ("user", .string "u1"), ("name", .string "Asha"),
   ("servicePrice", .number (.finite false 100 0))]

/-- A store whose profile write returns the document and whose user-flag write throws. -/
def flagFailingStore : Persistence where
  create := fun doc => .ok doc
  findByIdAndUpdate := fun _ _ => .error ⟨"MongoNetworkError", "connection lost", []⟩
  findOne := fun _ => .ok none
  save := fun _ => .ok ()

/-- A store whose profile write throws an error that is not a validation error. -/
def createFailingStore : Persistence where
  create := fun _ => .error ⟨"MongoNetworkError", "connection lost", []⟩
  findByIdAndUpdate := fun _ _ => .ok ()
  findOne := fun _ => .ok none
  save := fun _ => .ok ()

/-- A store that holds no profile. -/
def emptyStore : Persistence where
  create := fun doc => .ok doc
  findByIdAndUpdate := fun _ _ => .ok ()
  findOne := fun _ => .ok none
  save := fun _ => .ok ()

/-- A store that holds the profile `p` for every owner asked, and whose writes return. -/
def profileStore (p : Obj) : Persistence where
  create := fun doc => .ok doc
  findByIdAndUpdate := fun _ _ => .ok ()
  findOne := fun _ => .ok (some p)
  save := fun _ => .ok ()

/-! ## Properties of objects -/

theorem getProp_setProp_same (o : Obj) (k : String) (v : JSValue) :
    getProp (setProp o k v) k = some v := by
  induction o with
  | nil => simp [setProp, getProp]
  | cons hd tl ih =>
    obtain ⟨k', v'⟩ := hd
    by_cases h : k' = k
    · simp [setProp, getProp, h]
    · simp [setProp, getProp, h, ih]

theorem getProp_setProp_ne (o : Obj) (k k' : String) (v : JSValue) (h : k' ≠ k) :
    getProp (setProp o k v) k' = getProp o k' := by
  induction o with
  | nil => simp [setProp, getProp, Ne.symm h]
  | cons hd tl ih =>
    obtain ⟨k₀, v₀⟩ := hd
    by_cases h₀ : k₀ = k
    · subst h₀
      simp [setProp, getProp, Ne.symm h]
    · by_cases h₁ : k₀ = k'
      · subst h₁
        simp [setProp, getProp, h₀]
      · simp [setProp, getProp, h₀, h₁, ih]

theorem getProp_unsetProp_same (o : Obj) (k : String) :
    getProp (unsetProp o k) k = none := by
  induction o with
  | nil => simp [unsetProp, getProp]
  | cons hd tl ih =>
    obtain ⟨k', v'⟩ := hd
    by_cases h : k' = k
    · simp [unsetProp, h, ih]
    · simp [unsetProp, getProp, h, ih]

theorem getProp_unsetProp_ne (o : Obj) (k k' : String) (h : k' ≠ k) :
    getProp (unsetProp o k) k' = getProp o k' := by
  induction o with
  | nil => simp [unsetProp, getProp]
  | cons hd tl ih =>
    obtain ⟨k₀, v₀⟩ := hd
    by_cases h₀ : k₀ = k
    · subst h₀
      simp [unsetProp, getProp, Ne.symm h, ih]
    · by_cases h₁ : k₀ = k'
      · subst h₁
        simp [unsetProp, getProp, h₀]
      · simp [unsetProp, getProp, h₀, h₁, ih]

theorem getProp_assign_same (o : Obj) (k : String) (x : Option JSValue) :
    getProp (assign o k x) k = x := by
  cases x with
  | none => exact getProp_unsetProp_same o k
  | some v => exact getProp_setProp_same o k v

theorem getProp_assign_ne (o : Obj) (k k' : String) (x : Option JSValue) (h : k' ≠ k) :
    getProp (assign o k x) k' = getProp o k' := by
  cases x with
  | none => exact getProp_unsetProp_ne o k k' h
  | some v => exact getProp_setProp_ne o k k' v h

theorem getProp_assignIfDefined_same (o : Obj) (k : String) (v : JSValue) :
    getProp (assignIfDefined o k (some v)) k = some v :=
  getProp_setProp_same o k v

theorem getProp_assignIfDefined_ne (o : Obj) (k k' : String) (x : Option JSValue)
    (h : k' ≠ k) : getProp (assignIfDefined o k x) k' = getProp o k' := by
  cases x with
  | none => rfl
  | some v => exact getProp_setProp_ne o k k' v h

/-- A step `if (v !== undefined) o[f] = v` leaves `k` alone when `k` is another key or the
body lacks `f`. -/
theorem assignIfDefined_frame (o u : Obj) (f k : String)
    (h : k = f → getProp u f = none) :
    getProp (assignIfDefined o f (getProp u f)) k = getProp o k := by
  by_cases hk : k = f
  · rw [h hk]
    rfl
  · exact getProp_assignIfDefined_ne o f k _ hk

/-! ## Blank strings and `parseFloat` -/

theorem trimStart_eq_nil_iff (l : List Char) :
    trimStart l = [] ↔ ∀ c ∈ l, isWhiteSpace c = true := by
  induction l with
  | nil => simp [trimStart]
  | cons c cs ih =>
    by_cases h : isWhiteSpace c = true
    · simp [trimStart, h, ih]
    · simp [trimStart, h]

theorem trimStart_head (l : List Char) (c : Char) (cs : List Char)
    (h : trimStart l = c :: cs) : isWhiteSpace c = false := by
  induction l with
  | nil => simp [trimStart] at h
  | cons d ds ih =>
    by_cases hd : isWhiteSpace d = true
    · simp only [trimStart, hd, if_true] at h
      exact ih h
    · simp only [trimStart, hd] at h
      simp only [Bool.false_eq_true, if_false, List.cons.injEq] at h
      rw [← h.1]
      simpa using hd

/-- A string that `trim` empties has only white space after `trimStart`, hence nothing. -/
theorem trimStart_of_trim_blank (s : String) (h : trim s = "") : trimStart s.data = [] := by
  have h1 : trimEnd (trimStart s.data) = [] := by
    have := congrArg String.data h
    simpa [trim] using this
  have h2 : trimStart (trimStart s.data).reverse = [] := by
    simpa [trimEnd] using h1
  rw [trimStart_eq_nil_iff] at h2
  cases ht : trimStart s.data with
  | nil => rfl
  | cons c cs =>
    have hc := trimStart_head _ _ _ ht
    have := h2 c (by simp [ht])
    simp [hc] at this

/-- A blank string does not parse: `parseFloat` of it is `NaN`. -/
theorem parseFloatString_blank (s : String) (h : trim s = "") : parseFloatString s = .nan := by
  simp [parseFloatString, trimStart_of_trim_blank _ h]

/-! ## The `servicePrice` step of the update -/

theorem updateServicePrice_some (o : Obj) (v : JSValue) (s : String)
    (hnull : v ≠ .null) (hs : toStr v = .ok s) :
    updateServicePrice o (some v) =
      if trim s = "" then .ok (unsetProp o "servicePrice")
      else if isNaN (parseFloatString s) = false then
        .ok (setProp o "servicePrice" (.number (parseFloatString s)))
      else .ok o := by
  unfold updateServicePrice
  split
  · rename_i heq
    cases heq
  · rename_i heq
    cases heq
    exact absurd rfl hnull
  · rename_i w hw heq
    cases heq
    simp only [hs, parseFloat]
    by_cases hb : trim s = ""
    · simp [hb]
    · by_cases hn : isNaN (parseFloatString s) = true
      · simp [hb, hn]
      · simp [hb, hn]

theorem updateServicePrice_throw (o : Obj) (v : JSValue) (e : ThrownError)
    (hnull : v ≠ .null) (hs : toStr v = .error e) :
    updateServicePrice o (some v) = .error e := by
  unfold updateServicePrice
  split
  · rename_i heq
    cases heq
  · rename_i heq
    cases heq
    exact absurd rfl hnull
  · rename_i w hw heq
    cases heq
    simp only [hs]

/-- The shapes of the document the `servicePrice` step leaves. -/
theorem updateServicePrice_ok (o : Obj) (x : Option JSValue) (r : Obj)
    (hr : updateServicePrice o x = .ok r) :
    r = o ∨ r = unsetProp o "servicePrice"
      ∨ ∃ n, isNaN n = false ∧ r = setProp o "servicePrice" (.number n) := by
  cases x with
  | none =>
    left
    exact (Except.ok.inj hr).symm
  | some v =>
    by_cases hnull : v = .null
    · subst hnull
      right
      left
      exact (Except.ok.inj hr).symm
    · cases hs : toStr v with
      | error e =>
        rw [updateServicePrice_throw o v e hnull hs] at hr
        cases hr
      | ok s =>
        rw [updateServicePrice_some o v s hnull hs] at hr
        by_cases hb : trim s = ""
        · simp only [hb, if_true] at hr
          right
          left
          exact (Except.ok.inj hr).symm
        · by_cases hn : isNaN (parseFloatString s) = false
          · simp only [hb, hn, if_false, if_true] at hr
            right
            right
            exact ⟨_, hn, (Except.ok.inj hr).symm⟩
          · simp only [hb, hn, if_false] at hr
            left
            exact (Except.ok.inj hr).symm

theorem getProp_updateServicePrice_ne (o : Obj) (x : Option JSValue) (k : String) (r : Obj)
    (h : k ≠ "servicePrice") (hr : updateServicePrice o x = .ok r) :
    getProp r k = getProp o k := by
  rcases updateServicePrice_ok o x r hr with rfl | rfl | ⟨n, _, rfl⟩
  · rfl
  · exact getProp_unsetProp_ne o _ k h
  · exact getProp_setProp_ne o _ k _ h

/-- After the `servicePrice` step the price is the one before, none, or a Number that is not
`NaN`. -/
theorem updateServicePrice_price (o : Obj) (x : Option JSValue) (r : Obj)
    (hr : updateServicePrice o x = .ok r) :
    getProp r "servicePrice" = getProp o "servicePrice" ∨ getProp r "servicePrice" = none
      ∨ ∃ n, isNaN n = false ∧ getProp r "servicePrice" = some (.number n) := by
  rcases updateServicePrice_ok o x r hr with rfl | rfl | ⟨n, hn, rfl⟩
  · exact Or.inl rfl
  · exact Or.inr (Or.inl (getProp_unsetProp_same o _))
  · exact Or.inr (Or.inr ⟨n, hn, getProp_setProp_same o _ _⟩)

theorem updateServicePrice_converts (o : Obj) (x : Option JSValue) (h : converts x = true) :
    ∃ r, updateServicePrice o x = .ok r := by
  cases x with
  | none => exact ⟨o, rfl⟩
  | some v =>
    by_cases hnull : v = .null
    · subst hnull
      exact ⟨_, rfl⟩
    · cases hs : toStr v with
      | error e =>
        unfold converts at h
        split at h
        · rename_i heq
          cases heq
        · rename_i heq
          cases heq
          exact absurd rfl hnull
        · rename_i w hw heq
          cases heq
          simp [hs] at h
      | ok s =>
        rw [updateServicePrice_some o v s hnull hs]
        by_cases hb : trim s = ""
        · exact ⟨unsetProp o "servicePrice", by simp [hb]⟩
        · by_cases hn : isNaN (parseFloatString s) = false
          · exact ⟨setProp o "servicePrice" (.number (parseFloatString s)), by simp [hb, hn]⟩
          · exact ⟨o, by simp [hb, hn]⟩

/-! ## The merge -/

theorem mergeBefore_frame (p u : Obj) (k : String)
    (h : k ∉ mutableFields ∨ getProp u k = none) :
    getProp (mergeBefore p u) k = getProp p k := by
  have hf : ∀ f, f ∈ mutableFields → k = f → getProp u f = none := by
    intro f hf hkf
    subst hkf
    rcases h with h | h
    · exact absurd hf h
    · exact h
  unfold mergeBefore
  simp only []
  rw [assignIfDefined_frame _ u _ k (hf _ (by decide)),
    assignIfDefined_frame _ u _ k (hf _ (by decide)),
    assignIfDefined_frame _ u _ k (hf _ (by decide)),
    assignIfDefined_frame _ u _ k (hf _ (by decide)),
    assignIfDefined_frame _ u _ k (hf _ (by decide)),
    assignIfDefined_frame _ u _ k (hf _ (by decide)),
    assignIfDefined_frame _ u _ k (hf _ (by decide)),
    assignIfDefined_frame _ u _ k (hf _ (by decide)),
    assignIfDefined_frame _ u _ k (hf _ (by decide)),
    assignIfDefined_frame _ u _ k (hf _ (by decide)),
    assignIfDefined_frame _ u _ k (hf _ (by decide))]

theorem mergeAfter_frame (r u : Obj) (k : String)
    (h : k ∉ mutableFields ∨ getProp u k = none) :
    getProp (mergeAfter r u) k = getProp r k := by
  have hf : ∀ f, f ∈ mutableFields → k = f → getProp u f = none := by
    intro f hf hkf
    subst hkf
    rcases h with h | h
    · exact absurd hf h
    · exact h
  unfold mergeAfter
  simp only []
  rw [assignIfDefined_frame _ u _ k (hf _ (by decide)),
    assignIfDefined_frame _ u _ k (hf _ (by decide)),
    assignIfDefined_frame _ u _ k (hf _ (by decide))]

/-- The merged document is what the three stages of lines 152-180 give. -/
theorem mergeProfile_ok (p u m : Obj) (hm : mergeProfile p u = .ok m) :
    ∃ r, updateServicePrice (mergeBefore p u) (getProp u "servicePrice") = .ok r
      ∧ m = mergeAfter r u := by
  unfold mergeProfile at hm
  cases hr : updateServicePrice (mergeBefore p u) (getProp u "servicePrice") with
  | error e =>
    rw [hr] at hm
    cases hm
  | ok r =>
    rw [hr] at hm
    exact ⟨r, rfl, (Except.ok.inj hm).symm⟩

/-- The merge leaves a key alone when the update cannot assign it or the body lacks it. -/
theorem mergeProfile_frame (p u m : Obj) (k : String) (hm : mergeProfile p u = .ok m)
    (h : k ∉ mutableFields ∨ getProp u k = none) :
    getProp m k = getProp p k := by
  obtain ⟨r, hr, rfl⟩ := mergeProfile_ok p u m hm
  rw [mergeAfter_frame r u k h, ← mergeBefore_frame p u k h]
  by_cases hk : k = "servicePrice"
  · subst hk
    have hnone : getProp u "servicePrice" = none := by
      rcases h with h | h
      · exact absurd (by decide) h
      · exact h
    rw [hnone] at hr
    rw [Except.ok.inj hr]
  · exact getProp_updateServicePrice_ne _ _ k r hk hr

/-- A field other than `servicePrice` whose key the body holds has the body's value in the
merged document. -/
theorem mergeProfile_plain (p u m : Obj) (f : String) (v : JSValue)
    (hm : mergeProfile p u = .ok m) (hf : f ∈ plainFields) (hv : getProp u f = some v) :
    getProp m f = some v := by
  obtain ⟨r, hr, rfl⟩ := mergeProfile_ok p u m hm
  have hne : ∀ k, k ≠ "servicePrice" → getProp r k = getProp (mergeBefore p u) k :=
    fun k hk => getProp_updateServicePrice_ne _ _ k r hk hr
  simp only [plainFields, List.mem_cons, List.mem_singleton, List.not_mem_nil, or_false] at hf
  rcases hf with rfl | rfl | rfl | rfl | rfl | rfl | rfl | rfl | rfl | rfl | rfl | rfl | rfl | rfl <;>
    simp [mergeAfter, mergeBefore, hne, hv, getProp_assignIfDefined_ne,
      getProp_assignIfDefined_same]

theorem mergeProfile_converts (p u : Obj) (h : priceConverts u = true) :
    ∃ m, mergeProfile p u = .ok m := by
  obtain ⟨r, hr⟩ := updateServicePrice_converts (mergeBefore p u) _ h
  exact ⟨mergeAfter r u, by simp [mergeProfile, hr]⟩

/-! ## What the update controller does once the profile is found -/

theorem update_found (db : Persistence) (user : AuthUser) (p u : Obj)
    (hfind : db.findOne (ownerFilter user.id) = .ok (some p)) :
    (∀ e, mergeProfile p u = .error e →
        updateUserProfessionalProfile db ⟨some user, u⟩
          = (updateCatch e, [.findOne (ownerFilter user.id)]))
    ∧ (∀ m, mergeProfile p u = .ok m →
        (updateUserProfessionalProfile db ⟨some user, u⟩).2
          = [.findOne (ownerFilter user.id), .save m]) := by
  constructor
  · intro e he
    simp only [updateUserProfessionalProfile, hfind, he]
  · intro m hm
    simp only [updateUserProfessionalProfile, hfind, hm]
    cases db.save m <;> rfl

/-- Every document the update controller saves is the merge of the profile it found. -/
theorem update_saved (db : Persistence) (user : AuthUser) (p u doc : Obj)
    (hfind : db.findOne (ownerFilter user.id) = .ok (some p))
    (hdoc : StoreCall.save doc ∈ (updateUserProfessionalProfile db ⟨some user, u⟩).2) :
    mergeProfile p u = .ok doc := by
  cases hm : mergeProfile p u with
  | error e =>
    rw [(update_found db user p u hfind).1 e hm] at hdoc
    simp at hdoc
  | ok m =>
    rw [(update_found db user p u hfind).2 m hm] at hdoc
    simp at hdoc
    rw [hdoc]

/-! ## The partial update -/

/-- C1: every document that `updateUserProfessionalProfile` saves agrees with the profile it
found at every key that is not a mutable field or that the payload lacks; `user`, `_id` and
`id` keep their values whatever the payload holds.  The document is saved whenever the
`servicePrice` of the payload (if any) converts to a string, and for the payload
`{city: "Pune"}` the saved document differs from the profile at `city` only. -/
theorem update_changes_only_supplied_fields (p u : Obj) :
    (∀ (db : Persistence) (user : AuthUser) (doc : Obj),
        db.findOne (ownerFilter user.id) = .ok (some p) →
        StoreCall.save doc ∈ (updateUserProfessionalProfile db ⟨some user, u⟩).2 →
          (∀ k, k ∉ mutableFields ∨ getProp u k = none → getProp doc k = getProp p k)
          ∧ getProp doc "user" = getProp p "user"
          ∧ getProp doc "_id" = getProp p "_id"
          ∧ getProp doc "id" = getProp p "id")
    ∧ (∀ (db : Persistence) (user : AuthUser),
        db.findOne (ownerFilter user.id) = .ok (some p) → priceConverts u = true →
        ∃ doc, (updateUserProfessionalProfile db ⟨some user, u⟩).2
          = [.findOne (ownerFilter user.id), .save doc])
    ∧ (∀ (db : Persistence) (user : AuthUser),
        db.findOne (ownerFilter user.id) = .ok (some p) →
        ∃ doc, (updateUserProfessionalProfile db ⟨some user, [("city", .string "Pune")]⟩).2
            = [.findOne (ownerFilter user.id), .save doc]
          ∧ getProp doc "city" = some (.string "Pune")
          ∧ ∀ k, k ≠ "city" → getProp doc k = getProp p k) := by
  refine ⟨?_, ?_, ?_⟩
  · intro db user doc hfind hdoc
    have hm := update_saved db user p u doc hfind hdoc
    exact ⟨fun k h => mergeProfile_frame p u doc k hm h,
      mergeProfile_frame p u doc _ hm (Or.inl (by decide)),
      mergeProfile_frame p u doc _ hm (Or.inl (by decide)),
      mergeProfile_frame p u doc _ hm (Or.inl (by decide))⟩
  · intro db user hfind hconv
    obtain ⟨m, hm⟩ := mergeProfile_converts p u hconv
    exact ⟨m, (update_found db user p u hfind).2 m hm⟩
  · intro db user hfind
    obtain ⟨m, hm⟩ := mergeProfile_converts p [("city", .string "Pune")] rfl
    refine ⟨m, (update_found db user p _ hfind).2 m hm, ?_, ?_⟩
    · exact mergeProfile_plain p _ m "city" _ hm (by decide) rfl
    · intro k hk
      apply mergeProfile_frame p _ m k hm
      right
      simp [getProp, Ne.symm hk]

/-- C1 at a stored profile and a payload that also carries `user`, `_id` and `ownerUserId`:
the document saved has the city of the payload and the stored `user`. -/
theorem update_changes_only_supplied_fields_witness :
    (updateUserProfessionalProfile (profileStore storedProfile)
        ⟨some ⟨"u1"⟩, [("city", .string "Pune"), ("user", .string "u2"),
          ("_id", .string "p2"), ("ownerUserId", .string "u2")]⟩).2
      = [.findOne (ownerFilter "u1"),
         .save [("_id", .string "p1"), ("user", .string "u1"), ("name", .string "Asha"),
           ("servicePrice", .number (.finite false 100 0)), ("city", .string "Pune")]]
    ∧ getProp [("_id", .string "p1"), ("user", .string "u1"), ("name", .string "Asha"),
        ("servicePrice", .number (.finite false 100 0)), ("city", .string "Pune")] "user"
      = getProp storedProfile "user" :=
  ⟨rfl, ((update_changes_only_supplied_fields storedProfile
      [("city", .string "Pune"), ("user", .string "u2"), ("_id", .string "p2"),
        ("ownerUserId", .string "u2")]).1 (profileStore storedProfile) ⟨"u1"⟩
      [("_id", .string "p1"), ("user", .string "u1"), ("name", .string "Asha"),
        ("servicePrice", .number (.finite false 100 0)), ("city", .string "Pune")] rfl
      (List.Mem.tail _ (List.Mem.head _))).2.1⟩

/-- C2: when the payload holds the key of a mutable field other than `servicePrice`, every
document that `updateUserProfessionalProfile` saves has the payload's value in that field,
whatever the value is (the empty string, `null`, `false` and `0` included); and the document
is saved whenever the `servicePrice` of the payload (if any) converts to a string. -/
theorem update_overwrites_present_field (db : Persistence) (user : AuthUser) (p u : Obj)
    (f : String) (v : JSValue)
    (hfind : db.findOne (ownerFilter user.id) = .ok (some p))
    (hf : f ∈ plainFields) (hv : getProp u f = some v) :
    (∀ doc, StoreCall.save doc ∈ (updateUserProfessionalProfile db ⟨some user, u⟩).2 →
        getProp doc f = some v)
    ∧ (priceConverts u = true →
        ∃ doc, (updateUserProfessionalProfile db ⟨some user, u⟩).2
            = [.findOne (ownerFilter user.id), .save doc]
          ∧ getProp doc f = some v) := by
  constructor
  · intro doc hdoc
    exact mergeProfile_plain p u doc f v (update_saved db user p u doc hfind hdoc) hf hv
  · intro hconv
    obtain ⟨m, hm⟩ := mergeProfile_converts p u hconv
    exact ⟨m, (update_found db user p u hfind).2 m hm, mergeProfile_plain p u m f v hm hf hv⟩

/-- C2 at the payload `{name: "", needSupport: false}`: a document is saved and its `name`
is the empty string. -/
theorem update_overwrites_present_field_witness :
    ∃ doc, (updateUserProfessionalProfile (profileStore storedProfile)
        ⟨some ⟨"u1"⟩, [("name", .string ""), ("needSupport", .bool false)]⟩).2
          = [.findOne (ownerFilter "u1"), .save doc]
      ∧ getProp doc "name" = some (.string "") :=
  (update_overwrites_present_field (profileStore storedProfile) ⟨"u1"⟩ storedProfile
    [("name", .string ""), ("needSupport", .bool false)] "name" (.string "") rfl
    (by decide) rfl).2 rfl

/-- C3, the code at the failing input: the stored price is 100 and the payload holds the
object `{ "toString": "x" }` under `servicePrice`; `String(servicePrice)` throws, the
controller answers 500 and saves nothing. -/
theorem update_unconvertible_price_answers_500 :
    updateUserProfessionalProfile (profileStore storedProfile)
        ⟨some ⟨"u1"⟩, [("servicePrice", unconvertible)]⟩
      = (⟨500, [("success", .bool false),
                ("error", .string "Server error while updating profile"),
                ("details", .string "Cannot convert object to primitive value")]⟩,
         [.findOne [("user", .string "u1")]]) :=
  rfl

/-! ## The candidate record -/

theorem addServicePrice_some (o : Obj) (v : JSValue) (s : String)
    (hnull : v ≠ .null) (hs : toStr v = .ok s) :
    addServicePrice o (some v) =
      if trim s ≠ "" ∧ isNaN (parseFloatString s) = false then
        .ok (setProp o "servicePrice" (.number (parseFloatString s)))
      else .ok o := by
  unfold addServicePrice
  split
  · rename_i heq
    cases heq
  · rename_i heq
    cases heq
    exact absurd rfl hnull
  · rename_i w hw heq
    cases heq
    simp only [hs, parseFloat]
    by_cases hb : trim s = ""
    · simp [hb]
    · by_cases hn : isNaN (parseFloatString s) = true
      · simp [hb, hn]
      · simp [hb, hn]

theorem addServicePrice_throw (o : Obj) (v : JSValue) (e : ThrownError)
    (hnull : v ≠ .null) (hs : toStr v = .error e) :
    addServicePrice o (some v) = .error e := by
  unfold addServicePrice
  split
  · rename_i heq
    cases heq
  · rename_i heq
    cases heq
    exact absurd rfl hnull
  · rename_i w hw heq
    cases heq
    simp only [hs]

/-- The shapes of the record the conditional `servicePrice` leaves. -/
theorem addServicePrice_ok (o : Obj) (x : Option JSValue) (r : Obj)
    (hr : addServicePrice o x = .ok r) :
    r = o ∨ ∃ n, isNaN n = false ∧ r = setProp o "servicePrice" (.number n) := by
  cases x with
  | none =>
    left
    exact (Except.ok.inj hr).symm
  | some v =>
    by_cases hnull : v = .null
    · subst hnull
      left
      exact (Except.ok.inj hr).symm
    · cases hs : toStr v with
      | error e =>
        rw [addServicePrice_throw o v e hnull hs] at hr
        cases hr
      | ok s =>
        rw [addServicePrice_some o v s hnull hs] at hr
        by_cases hc : trim s ≠ "" ∧ isNaN (parseFloatString s) = false
        · rw [if_pos hc] at hr
          right
          exact ⟨_, hc.2, (Except.ok.inj hr).symm⟩
        · rw [if_neg hc] at hr
          left
          exact (Except.ok.inj hr).symm

theorem addServicePrice_converts (o : Obj) (x : Option JSValue) (h : converts x = true) :
    ∃ r, addServicePrice o x = .ok r := by
  cases x with
  | none => exact ⟨o, rfl⟩
  | some v =>
    by_cases hnull : v = .null
    · subst hnull
      exact ⟨o, rfl⟩
    · cases hs : toStr v with
      | error e =>
        unfold converts at h
        split at h
        · rename_i heq
          cases heq
        · rename_i heq
          cases heq
          exact absurd rfl hnull
        · rename_i w hw heq
          cases heq
          simp [hs] at h
      | ok s =>
        rw [addServicePrice_some o v s hnull hs]
        by_cases hc : trim s ≠ "" ∧ isNaN (parseFloatString s) = false
        · exact ⟨setProp o "servicePrice" (.number (parseFloatString s)), if_pos hc⟩
        · exact ⟨o, if_neg hc⟩

theorem getProp_basePayload_user (id : String) (b : Obj) :
    getProp (basePayload id b) "user" = some (.string id) := by
  simp [basePayload, getProp_assign_ne, getProp]

theorem getProp_basePayload_servicePrice (id : String) (b : Obj) :
    getProp (basePayload id b) "servicePrice" = none := by
  simp [basePayload, getProp_assign_ne, getProp]

/-- The candidate record is what the three stages of lines 32-63 give. -/
theorem professionPayload_ok (id : String) (b cand : Obj)
    (h : professionPayload id b = .ok cand) :
    ∃ r, addServicePrice (basePayload id b) (getProp b "servicePrice") = .ok r
      ∧ cand = assignIfDefined r "priceUnit" (getProp b "priceUnit") := by
  unfold professionPayload at h
  cases hr : addServicePrice (basePayload id b) (getProp b "servicePrice") with
  | error e =>
    rw [hr] at h
    cases h
  | ok r =>
    rw [hr] at h
    exact ⟨r, rfl, (Except.ok.inj h).symm⟩

theorem professionPayload_user (id : String) (b cand : Obj)
    (h : professionPayload id b = .ok cand) :
    getProp cand "user" = some (.string id) := by
  obtain ⟨r, hr, rfl⟩ := professionPayload_ok id b cand h
  rw [getProp_assignIfDefined_ne _ _ _ _ (by decide)]
  rcases addServicePrice_ok _ _ r hr with rfl | ⟨n, _, rfl⟩
  · exact getProp_basePayload_user id b
  · rw [getProp_setProp_ne _ _ _ _ (by decide)]
    exact getProp_basePayload_user id b

theorem professionPayload_converts (id : String) (b : Obj) (h : priceConverts b = true) :
    ∃ cand, professionPayload id b = .ok cand := by
  obtain ⟨r, hr⟩ := addServicePrice_converts (basePayload id b) _ h
  exact ⟨assignIfDefined r "priceUnit" (getProp b "priceUnit"), by simp [professionPayload, hr]⟩

/-- Two bodies that agree outside the owner keys give the same candidate record, or the same
error. -/
theorem professionPayload_congr (id : String) (b b' : Obj)
    (h : ∀ k, k ∉ ownerKeys → getProp b k = getProp b' k) :
    professionPayload id b = professionPayload id b' := by
  unfold professionPayload basePayload
  rw [h "name" (by decide), h "email" (by decide), h "mobileNo" (by decide),
    h "secondaryMobileNo" (by decide), h "state" (by decide), h "district" (by decide),
    h "city" (by decide), h "serviceCategory" (by decide), h "serviceName" (by decide),
    h "designation" (by decide), h "experience" (by decide), h "needSupport" (by decide),
    h "professionDescription" (by decide), h "servicePrice" (by decide),
    h "priceUnit" (by decide)]

/-! ## What `addProfession` does for an authenticated caller -/

theorem addProfession_built (db : Persistence) (id : String) (b : Obj) (hid : id ≠ "") :
    (∀ e, professionPayload id b = .error e →
        addProfession db ⟨some ⟨id⟩, b⟩ = (addProfessionCatch e, []))
    ∧ (∀ cand, professionPayload id b = .ok cand →
        (addProfession db ⟨some ⟨id⟩, b⟩).2.head? = some (.create cand)
        ∧ ∀ doc, StoreCall.create doc ∈ (addProfession db ⟨some ⟨id⟩, b⟩).2 → doc = cand) := by
  constructor
  · intro e he
    simp only [addProfession, hid, if_false, he]
  · intro cand hc
    simp only [addProfession, hid, if_false, hc]
    cases db.create cand with
    | error e => simp
    | ok d =>
      simp only []
      cases db.findByIdAndUpdate id isProfessionFlag <;> simp

/-- Every record `addProfession` hands to `Profession.create` is the candidate record. -/
theorem addProfession_created (db : Persistence) (id : String) (b doc : Obj) (hid : id ≠ "")
    (hdoc : StoreCall.create doc ∈ (addProfession db ⟨some ⟨id⟩, b⟩).2) :
    professionPayload id b = .ok doc := by
  cases hp : professionPayload id b with
  | error e =>
    rw [(addProfession_built db id b hid).1 e hp] at hdoc
    simp at hdoc
  | ok cand =>
    rw [((addProfession_built db id b hid).2 cand hp).2 doc hdoc]

/-- C4, the code at the failing input: the payload holds the object `{ "toString": "x" }`
under `servicePrice`; `String(servicePrice)` throws while the candidate record is built,
and `addProfession` answers 400 without any call to the store. -/
theorem create_unconvertible_price_answers_400 (db : Persistence) :
    addProfession db ⟨some ⟨"u1"⟩, ("servicePrice", unconvertible) :: completePayload⟩
      = (⟨400, [("success", .bool false),
                ("error", .string "Cannot convert object to primitive value")]⟩, []) :=
  rfl

/-- C5: every record that `addProfession` hands to `Profession.create` has the authenticated
caller as its `user`; the record is handed over whenever the `servicePrice` of the payload
(if any) converts to a string; and two payloads that differ only under the keys `user`,
`userId`, `ownerUserId` give the same candidate record and the same run of the controller. -/
theorem create_owner_from_caller (db : Persistence) (id : String) (b b' : Obj)
    (hid : id ≠ "") :
    (∀ doc, StoreCall.create doc ∈ (addProfession db ⟨some ⟨id⟩, b⟩).2 →
        getProp doc "user" = some (.string id))
    ∧ (priceConverts b = true →
        ∃ doc, (addProfession db ⟨some ⟨id⟩, b⟩).2.head? = some (.create doc)
          ∧ getProp doc "user" = some (.string id))
    ∧ ((∀ k, k ∉ ownerKeys → getProp b k = getProp b' k) →
        professionPayload id b = professionPayload id b'
        ∧ addProfession db ⟨some ⟨id⟩, b⟩ = addProfession db ⟨some ⟨id⟩, b'⟩) := by
  refine ⟨?_, ?_, ?_⟩
  · intro doc hdoc
    exact professionPayload_user id b doc (addProfession_created db id b doc hid hdoc)
  · intro hconv
    obtain ⟨cand, hc⟩ := professionPayload_converts id b hconv
    exact ⟨cand, ((addProfession_built db id b hid).2 cand hc).1,
      professionPayload_user id b cand hc⟩
  · intro h
    have hp := professionPayload_congr id b b' h
    refine ⟨hp, ?_⟩
    simp only [addProfession, hid, if_false, hp]

/-- C5 at two payloads, one of which names another owner under all three keys: the
controller runs alike on both. -/
theorem create_owner_from_caller_witness :
    addProfession emptyStore ⟨some ⟨"u1"⟩, completePayload⟩
      = addProfession emptyStore ⟨some ⟨"u1"⟩, ("user", .string "u2") ::
          ("userId", .string "u2") :: ("ownerUserId", .string "u2") :: completePayload⟩ :=
  ((create_owner_from_caller emptyStore "u1" completePayload
    (("user", .string "u2") :: ("userId", .string "u2") :: ("ownerUserId", .string "u2") ::
      completePayload) (by decide)).2.2
    (by
      intro k hk
      simp only [ownerKeys, List.mem_cons, List.mem_singleton, List.not_mem_nil, or_false,
        not_or] at hk
      simp [getProp, Ne.symm hk.1, Ne.symm hk.2.1, Ne.symm hk.2.2])).2

/-! ## Failures of the store in `addProfession` -/

/-- C7 as amended: once the candidate record is built and the profile write has returned,
the answer of `addProfession` is decided by the user-flag write: when that write throws, the
answer is not a success (its status is not 201, `success` is false and it carries no
profile) although both writes were issued; when it returns, the answer is 201 with the
profile. -/
theorem create_answer_follows_flag_write (db : Persistence) (id : String)
    (b cand profession : Obj) (hid : id ≠ "")
    (hp : professionPayload id b = .ok cand) (hc : db.create cand = .ok profession) :
    (∀ err, db.findByIdAndUpdate id isProfessionFlag = .error err →
        (addProfession db ⟨some ⟨id⟩, b⟩).1.status ≠ 201
        ∧ getProp (addProfession db ⟨some ⟨id⟩, b⟩).1.body "success" = some (.bool false)
        ∧ getProp (addProfession db ⟨some ⟨id⟩, b⟩).1.body "data" = none
        ∧ (addProfession db ⟨some ⟨id⟩, b⟩).2
            = [.create cand, .findByIdAndUpdate id isProfessionFlag])
    ∧ (db.findByIdAndUpdate id isProfessionFlag = .ok () →
        (addProfession db ⟨some ⟨id⟩, b⟩).1
          = ⟨201, [("success", .bool true), ("data", .object profession)]⟩) := by
  constructor
  · intro err hf
    have h : addProfession db ⟨some ⟨id⟩, b⟩
        = (addProfessionCatch err, [.create cand, .findByIdAndUpdate id isProfessionFlag]) := by
      simp only [addProfession, hid, if_false, hp, hc, hf]
    rw [h]
    refine ⟨?_, ?_, ?_, rfl⟩
    · unfold addProfessionCatch
      split <;> simp
    · unfold addProfessionCatch
      split <;> simp [getProp]
    · unfold addProfessionCatch
      split <;> simp [getProp]
  · intro hf
    simp only [addProfession, hid, if_false, hp, hc, hf]

/-- C7 as amended, at a store whose flag write throws. -/
theorem create_answer_follows_flag_write_witness :
    getProp (addProfession flagFailingStore ⟨some ⟨"u1"⟩, completePayload⟩).1.body "success"
      = some (.bool false) :=
  ((create_answer_follows_flag_write flagFailingStore "u1" completePayload
    (basePayload "u1" completePayload) (basePayload "u1" completePayload) (by decide) rfl rfl).1
    ⟨"MongoNetworkError", "connection lost", []⟩ rfl).2.1

/-- C7 fails as stated: the profile write returns, the flag write throws, and the answer of
`addProfession` is not a success: `success` is false and no profile is returned. -/
theorem create_fails_when_flag_write_fails :
    professionPayload "u1" completePayload = .ok (basePayload "u1" completePayload)
    ∧ flagFailingStore.create (basePayload "u1" completePayload)
        = .ok (basePayload "u1" completePayload)
    ∧ (addProfession flagFailingStore ⟨some ⟨"u1"⟩, completePayload⟩).1.status ≠ 201
    ∧ getProp (addProfession flagFailingStore ⟨some ⟨"u1"⟩, completePayload⟩).1.body "success"
        = some (.bool false)
    ∧ getProp (addProfession flagFailingStore ⟨some ⟨"u1"⟩, completePayload⟩).1.body "data"
        = none :=
  ⟨rfl, rfl, by decide, rfl, rfl⟩

/-- C10, the code at the failing input: the profile write throws an error that is not a
validation error, and `addProfession` answers 400 (not 500) with the error message. -/
theorem create_store_failure_answers_400 :
    (addProfession createFailingStore ⟨some ⟨"u1"⟩, completePayload⟩).1.status
        = 400
    ∧ getProp (addProfession createFailingStore
        ⟨some ⟨"u1"⟩, completePayload⟩).1.body "error"
        = some (.string "connection lost")
    ∧ (updateCatch ⟨"MongoNetworkError", "connection lost", []⟩).status = 500 :=
  ⟨rfl, rfl, rfl⟩

/-! ## Updating without a profile -/

/-- C9: when the lookup of the caller's profile finds nothing, the update answers 404 and
issues no write: its only store call is the lookup. -/
theorem update_without_profile_not_found (db : Persistence) (id : String) (b : Obj)
    (hnone : db.findOne [("user", .string id)] = .ok none) :
    (updateUserProfessionalProfile db ⟨some ⟨id⟩, b⟩).1.status = 404
    ∧ (updateUserProfessionalProfile db ⟨some ⟨id⟩, b⟩).2 = [.findOne [("user", .string id)]]
    ∧ ∀ c ∈ (updateUserProfessionalProfile db ⟨some ⟨id⟩, b⟩).2, c.isWrite = false := by
  have h : updateUserProfessionalProfile db ⟨some ⟨id⟩, b⟩ =
      (⟨404, [("success", .bool false),
              ("error", .string "Professional profile not found. Please add one first.")]⟩,
       [.findOne [("user", .string id)]]) := by
    simp only [updateUserProfessionalProfile, ownerFilter, hnone]
  rw [h]
  refine ⟨rfl, rfl, ?_⟩
  intro c hc
  simp only [List.mem_singleton] at hc
  rw [hc]
  rfl

/-- C9 at a store that holds no profile. -/
theorem update_without_profile_not_found_witness :
    (updateUserProfessionalProfile emptyStore ⟨some ⟨"u1"⟩, [("city", .string "Pune")]⟩).1.status
      = 404 :=
  (update_without_profile_not_found emptyStore "u1" [("city", .string "Pune")] rfl).1

/-! ## The stored price -/

theorem professionPayload_price (id : String) (b cand : Obj) (x : JSValue)
    (hc : professionPayload id b = .ok cand) (hx : getProp cand "servicePrice" = some x) :
    isNumberNotNaN x = true := by
  obtain ⟨r, hr, rfl⟩ := professionPayload_ok id b cand hc
  rw [getProp_assignIfDefined_ne _ _ _ _ (by decide)] at hx
  rcases addServicePrice_ok _ _ r hr with rfl | ⟨n, hn, rfl⟩
  · rw [getProp_basePayload_servicePrice] at hx
    cases hx
  · rw [getProp_setProp_same] at hx
    cases hx
    simpa [isNumberNotNaN] using hn

theorem mergeProfile_price (p u m : Obj) (x : JSValue)
    (hm : mergeProfile p u = .ok m) (hx : getProp m "servicePrice" = some x) :
    getProp p "servicePrice" = some x ∨ isNumberNotNaN x = true := by
  obtain ⟨r, hr, rfl⟩ := mergeProfile_ok p u m hm
  have h1 : getProp (mergeAfter r u) "servicePrice" = getProp r "servicePrice" := by
    simp [mergeAfter, getProp_assignIfDefined_ne]
  have h2 : getProp (mergeBefore p u) "servicePrice" = getProp p "servicePrice" := by
    simp [mergeBefore, getProp_assignIfDefined_ne]
  rw [h1] at hx
  rcases updateServicePrice_price _ _ r hr with h | h | ⟨n, hn, h⟩
  · left
    rw [← h2, ← h, hx]
  · rw [h] at hx
    cases hx
  · right
    rw [h] at hx
    cases hx
    simpa [isNumberNotNaN] using hn

/-- C8 as amended: the `servicePrice` of the candidate record, when present, is a Number that
is not `NaN`; the `servicePrice` of the merged document, when present, is the stored one or a
Number that is not `NaN`; and the same holds of every record `addProfession` hands to
`Profession.create` and of every document `updateUserProfessionalProfile` saves. -/
theorem servicePrice_is_a_number (id : String) (b p u : Obj) :
    (∀ cand x, professionPayload id b = .ok cand →
        getProp cand "servicePrice" = some x → isNumberNotNaN x = true)
    ∧ (∀ m x, mergeProfile p u = .ok m → getProp m "servicePrice" = some x →
        getProp p "servicePrice" = some x ∨ isNumberNotNaN x = true)
    ∧ (∀ (db : Persistence) (doc : Obj) (x : JSValue), id ≠ "" →
        StoreCall.create doc ∈ (addProfession db ⟨some ⟨id⟩, b⟩).2 →
        getProp doc "servicePrice" = some x → isNumberNotNaN x = true)
    ∧ (∀ (db : Persistence) (user : AuthUser) (doc : Obj) (x : JSValue),
        db.findOne (ownerFilter user.id) = .ok (some p) →
        StoreCall.save doc ∈ (updateUserProfessionalProfile db ⟨some user, u⟩).2 →
        getProp doc "servicePrice" = some x →
        getProp p "servicePrice" = some x ∨ isNumberNotNaN x = true) := by
  refine ⟨?_, ?_, ?_, ?_⟩
  · intro cand x hc hx
    exact professionPayload_price id b cand x hc hx
  · intro m x hm hx
    exact mergeProfile_price p u m x hm hx
  · intro db doc x hid hdoc hx
    exact professionPayload_price id b doc x (addProfession_created db id b doc hid hdoc) hx
  · intro db user doc x hfind hdoc hx
    exact mergeProfile_price p u doc x (update_saved db user p u doc hfind hdoc) hx

/-- C8 as amended, at the payload `{servicePrice: "-5"}`. -/
theorem servicePrice_is_a_number_witness :
    professionPayload "u1" [("servicePrice", .string "-5")]
        = .ok [("user", .string "u1"), ("servicePrice", .number (.finite true 5 0))]
    ∧ isNumberNotNaN (.number (.finite true 5 0)) = true :=
  ⟨rfl, (servicePrice_is_a_number "u1" [("servicePrice", .string "-5")] [] []).1
    _ (.number (.finite true 5 0)) rfl rfl⟩

/-- C8 fails as stated: `"-5"` puts a negative price and `"Infinity"` an infinite price in
the candidate record and in the merged document. -/
theorem servicePrice_negative_and_infinite_stored :
    professionPayload "u1" [("servicePrice", .string "-5")]
        = .ok [("user", .string "u1"), ("servicePrice", .number (.finite true 5 0))]
    ∧ isFiniteNonNegative (.number (.finite true 5 0)) = false
    ∧ professionPayload "u1" [("servicePrice", .string "Infinity")]
        = .ok [("user", .string "u1"), ("servicePrice", .number (.infinity false))]
    ∧ isFiniteNonNegative (.number (.infinity false)) = false
    ∧ mergeProfile [("user", .string "u1")] [("servicePrice", .string "-5")]
        = .ok [("user", .string "u1"), ("servicePrice", .number (.finite true 5 0))]
    ∧ mergeProfile [("user", .string "u1")] [("servicePrice", .string "Infinity")]
        = .ok [("user", .string "u1"), ("servicePrice", .number (.infinity false))] :=
  ⟨rfl, rfl, rfl, rfl, rfl, rfl⟩

/-! ## The lookup filter -/

/-- C6, the code at the failing input: for the query `plumb.r` the controller hands the store
the pattern `^plumb.r$` with the option `i`; the `.` of the query arrives unescaped, as an
operator of the pattern. -/
theorem lookup_passes_query_unescaped (find : RegexFilter → Except ThrownError (List Obj)) :
    (getProfessionalsByService find (some "plumb.r")).2 = [⟨"^plumb.r$", "i"⟩]
    ∧ serviceNameFilter "plumb.r" = ⟨"^plumb.r$", "i"⟩ := by
  refine ⟨?_, by decide⟩
  have hq : ¬ ("plumb.r" = "") := by decide
  have hf : serviceNameFilter "plumb.r" = ⟨"^plumb.r$", "i"⟩ := by decide
  simp only [getProfessionalsByService, hq, if_false, hf]
  cases find ⟨"^plumb.r$", "i"⟩ <;> rfl

end ProfessionController
